import Mathlib

/-!
Verification of the eyewear-recommendation core of the `spectacles`
repository against its natural-language specification.

The development shallowly embeds the Python sources:

* `src/face_analysis.py`  — `FaceAnalyzer._calculate_metrics`, over `ℝ`
  (exact real arithmetic stands in for IEEE doubles; a division whose
  float result would be non-finite, i.e. an unguarded division by zero,
  is modelled as `Option.none`).
* `src/recommend.py`      — artifact loading, broadcast/concat, one-hot
  encoding (`pd.get_dummies`), schema alignment, scaler application and
  the ranking step, as a total function into `Except String _`
  (exceptions become `.error`).
* `src/my_recommend.py` / `src/train.py` — `create_interaction_features`.
* `src/gemini_recommend.py` — the score-mapping step of `score_frames`.
* `pandas.DataFrame.sort_values(ascending=False)` — embedded following
  `pandas.core.sorting.nargsort` (reverse, ascending argsort, reverse)
  on top of numpy aquicksort (introsort: partition passes for segments
  longer than `SMALL_QUICKSORT = 15` elements, insertion sort below;
  the depth-limit heapsort fallback cannot trigger at the sizes any
  statement below mentions, so it is not modelled).

A `DataFrame` is a list of named, dtype-tagged columns of cells, which
is exactly the structure the pandas calls in the source manipulate.
-/

/-- Pandas dtypes that the pipeline distinguishes.  `pd.get_dummies`
produces `boolDt` columns (pandas 2.x), a scalar `df[c] = 0` assignment
produces `intDt`, face metrics and frame dimensions are `floatDt`, and
string-valued catalog columns are `objDt`. -/
inductive Dtype where
  | floatDt
  | intDt
  | boolDt
  | objDt
deriving DecidableEq, Repr

/-- A single cell of a pandas column: numeric, string, or boolean. -/
inductive Cell where
  | num (q : ℚ)
  | str (s : String)
  | bl (b : Bool)
deriving DecidableEq, Repr

/-- One named column of a DataFrame. -/
structure Col where
  name : String
  dtype : Dtype
  cells : List Cell
deriving DecidableEq, Repr

/-- A DataFrame is its ordered list of columns. -/
abbrev DataFrame := List Col

namespace DataFrame

/-- `c in df.columns`. -/
def hasCol (df : DataFrame) (c : String) : Bool :=
  df.any (fun col => col.name = c)

/-- Column lookup by name (first occurrence, as pandas label lookup). -/
def getCol (df : DataFrame) (c : String) : Option Col :=
  df.find? (fun col => col.name = c)

/-- Cell list of a column, `[]` if the column is absent. -/
def colVals (df : DataFrame) (c : String) : List Cell :=
  match df.getCol c with
  | some col => col.cells
  | none => []

/-- The ordered list of column names. -/
def names (df : DataFrame) : List String :=
  df.map (fun col => col.name)

/-- `df[c] = v`: replace the column named `c` in place if present,
otherwise append it at the end, exactly as a pandas column assignment. -/
def setCol (df : DataFrame) (c : Col) : DataFrame :=
  if df.hasCol c.name then
    df.map (fun col => if col.name = c.name then c else col)
  else
    df ++ [c]

/-- Number of rows (length of the first column; 0 for no columns). -/
def nrows (df : DataFrame) : Nat :=
  match df with
  | [] => 0
  | col :: _ => col.cells.length

/-- Row selection by positional indices (used for `head` after a sort). -/
def takeRows (df : DataFrame) (idx : List Nat) : DataFrame :=
  df.map (fun col => { col with cells := idx.map (fun i => col.cells.getD i (Cell.num 0)) })

/-- Column selection `df[cols]`; a missing label would be a pandas
`KeyError`, modelled by an empty junk column (never reached in the
states the theorems mention). -/
def selectCols (df : DataFrame) (cols : List String) : DataFrame :=
  cols.map (fun c => (df.getCol c).getD ⟨c, Dtype.intDt, []⟩)

end DataFrame

/-! ## Schema alignment (`src/recommend.py` lines 42-45)

```python
for col in xcols:
    if col not in combined_encoded.columns:
        combined_encoded[col] = 0
combined_encoded = combined_encoded[xcols]
```
-/

/-- The zero column `df[col] = 0` inserts: dtype int64, all cells 0. -/
def zeroCol (c : String) (n : Nat) : Col :=
  ⟨c, Dtype.intDt, List.replicate n (Cell.num 0)⟩

/-- The zero-fill loop: walk the schema in order and append, for every
name not yet a column, an integer column of zeros (`df[col] = 0`). -/
def addMissing (xcols : List String) (df : DataFrame) (n : Nat) : DataFrame :=
  match xcols with
  | [] => df
  | c :: rest =>
      if DataFrame.hasCol df c then addMissing rest df n
      else addMissing rest (df ++ [zeroCol c n]) n

/-- Schema alignment: zero-fill the missing schema columns, then select
the schema columns in schema order. -/
def alignSchema (xcols : List String) (df : DataFrame) (n : Nat) : DataFrame :=
  (addMissing xcols df n).selectCols xcols

theorem hasCol_append_single (df : DataFrame) (col : Col) (c : String) :
    (df ++ [col]).hasCol c = (df.hasCol c || decide (col.name = c)) := by
  simp [DataFrame.hasCol, List.any_append]

theorem getCol_append_of_hasCol (df extra : DataFrame) (c : String)
    (h : df.hasCol c = true) : (df ++ extra).getCol c = df.getCol c := by
  induction df with
  | nil => simp [DataFrame.hasCol] at h
  | cons col rest ih =>
    by_cases hc : col.name = c
    · simp [DataFrame.getCol, List.find?, hc]
    · have h' : DataFrame.hasCol rest c = true := by
        simpa [DataFrame.hasCol, hc] using h
      simpa [DataFrame.getCol, List.find?, hc] using ih h'

theorem getCol_append_of_not_hasCol (df extra : DataFrame) (c : String)
    (h : df.hasCol c = false) : (df ++ extra).getCol c = extra.getCol c := by
  induction df with
  | nil => simp
  | cons col rest ih =>
    have hc : ¬ (col.name = c) := by
      intro hne
      simp [DataFrame.hasCol, hne] at h
    have h' : DataFrame.hasCol rest c = false := by
      simp only [DataFrame.hasCol, List.any_cons, Bool.or_eq_false_iff] at h
      exact h.2
    simpa [DataFrame.getCol, List.find?, hc] using ih h'

/-- The zero-fill loop never removes a column: `hasCol` is monotone. -/
theorem hasCol_addMissing_of_hasCol (xcols : List String) (df : DataFrame)
    (n : Nat) (c : String) (h : df.hasCol c = true) :
    (addMissing xcols df n).hasCol c = true := by
  induction xcols generalizing df with
  | nil => simpa [addMissing] using h
  | cons x rest ih =>
    by_cases hx : df.hasCol x
    · simpa [addMissing, hx] using ih df h
    · have h' : DataFrame.hasCol (df ++ [zeroCol x n]) c = true := by
        simp [hasCol_append_single, h]
      simpa [addMissing, hx] using ih _ h'

/-- A lookup that already succeeds is untouched by the zero-fill loop,
which only ever appends fresh names. -/
theorem getCol_addMissing_of_hasCol (xcols : List String)
    (df : DataFrame) (n : Nat) (c : String) (h : df.hasCol c = true) :
    (addMissing xcols df n).getCol c = df.getCol c := by
  induction xcols generalizing df with
  | nil => simp [addMissing]
  | cons x rest ih =>
    by_cases hx : df.hasCol x
    · simpa [addMissing, hx] using ih df h
    · have h' : DataFrame.hasCol (df ++ [zeroCol x n]) c = true := by
        simp [hasCol_append_single, h]
      have step : (addMissing (x :: rest) df n).getCol c =
          (df ++ [zeroCol x n]).getCol c := by
        simpa [addMissing, hx] using ih _ h'
      rw [step]
      exact getCol_append_of_hasCol df _ c h

/-- A schema name absent from the built frame is looked up, after the
zero-fill loop, as the freshly appended integer column of zeros. -/
theorem getCol_addMissing_of_missing (xcols : List String) (df : DataFrame)
    (n : Nat) (c : String) (hmem : c ∈ xcols) (habs : df.hasCol c = false) :
    (addMissing xcols df n).getCol c = some (zeroCol c n) := by
  induction xcols generalizing df with
  | nil => cases hmem
  | cons x rest ih =>
    by_cases hxc : x = c
    · subst hxc
      have hafter : DataFrame.hasCol (df ++ [zeroCol x n]) x = true := by
        simp [hasCol_append_single, zeroCol]
      have step : (addMissing (x :: rest) df n).getCol x =
          (df ++ [zeroCol x n]).getCol x := by
        simpa [addMissing, habs] using getCol_addMissing_of_hasCol rest _ n x hafter
      rw [step, getCol_append_of_not_hasCol df _ x habs]
      simp [DataFrame.getCol, List.find?, zeroCol]
    · have hmemr : c ∈ rest := by
        rcases List.mem_cons.mp hmem with h | h
        · exact absurd h.symm hxc
        · exact h
      by_cases hx : df.hasCol x
      · simpa [addMissing, hx] using ih df hmemr habs
      · have habs' : DataFrame.hasCol (df ++ [zeroCol x n]) c = false := by
          simp [hasCol_append_single, habs, zeroCol, hxc]
        simpa [addMissing, hx] using ih _ hmemr habs'

/-- The names of the selected columns are the requested labels. -/
theorem names_selectCols (df : DataFrame) (cols : List String) :
    (df.selectCols cols).names = cols := by
  induction cols with
  | nil => simp [DataFrame.selectCols, DataFrame.names]
  | cons c rest ih =>
    simp only [DataFrame.selectCols, DataFrame.names, List.map_cons] at ih ⊢
    refine List.cons_eq_cons.mpr ⟨?_, ih⟩
    cases hfind : df.getCol c with
    | none => simp
    | some col =>
      have : col.name = c := by
        have := List.find?_some hfind
        simpa using this
      simp [this]

/-- Looking a requested label up in the selection result returns the
column the selection fetched for it. -/
theorem getCol_cons (col : Col) (df : DataFrame) (c : String) :
    DataFrame.getCol (col :: df) c =
      if col.name = c then some col else df.getCol c := by
  by_cases h : col.name = c
  · rw [if_pos h]
    exact List.find?_cons_of_pos _ (by simpa using h)
  · rw [if_neg h]
    exact List.find?_cons_of_neg _ (by simpa using h)

theorem name_getD_getCol (df : DataFrame) (x : String) :
    ((df.getCol x).getD ⟨x, Dtype.intDt, []⟩).name = x := by
  cases hfind : df.getCol x with
  | none => simp
  | some col =>
    have : col.name = x := by
      have := List.find?_some hfind
      simpa using this
    simp [this]

theorem getCol_selectCols_mem (df : DataFrame) (cols : List String)
    (c : String) (hmem : c ∈ cols) :
    (df.selectCols cols).getCol c =
      some ((df.getCol c).getD ⟨c, Dtype.intDt, []⟩) := by
  induction cols with
  | nil => cases hmem
  | cons x rest ih =>
    by_cases hxc : x = c
    · subst hxc
      simp only [DataFrame.selectCols, List.map_cons]
      rw [getCol_cons, if_pos (name_getD_getCol df x)]
    · have hmemr : c ∈ rest := by
        rcases List.mem_cons.mp hmem with h | h
        · exact absurd h.symm hxc
        · exact h
      simp only [DataFrame.selectCols, List.map_cons]
      rw [getCol_cons, if_neg (by rw [name_getD_getCol]; exact hxc)]
      exact ih hmemr

/-- C1 — After schema alignment the column list equals the schema
exactly (order included), and every schema column absent from the built
matrix is the inserted integer column of zeros.  Columns absent from
the schema are dropped because the result consists, by the first
conjunct, of the schema columns only. -/
theorem C1_alignSchema_exact (xcols : List String) (df : DataFrame) (n : Nat) :
    (alignSchema xcols df n).names = xcols ∧
      ∀ c ∈ xcols, df.hasCol c = false →
        (alignSchema xcols df n).getCol c = some (zeroCol c n) := by
  refine ⟨names_selectCols _ xcols, ?_⟩
  intro c hc habs
  have hval := getCol_addMissing_of_missing xcols df n c hc habs
  rw [alignSchema, getCol_selectCols_mem _ xcols c hc, hval]
  rfl

/-- C1 witness: a concrete schema and built matrix.  The schema asks
for `FacialSymmetry`, `Width_mm` and the indicator `Brand_Acme`; the
built matrix lacks `Brand_Acme` and carries an extra column `Junk`
which alignment drops. -/
theorem C1_alignSchema_exact_witness :
    (alignSchema ["FacialSymmetry", "Width_mm", "Brand_Acme"]
        [⟨"FacialSymmetry", Dtype.floatDt, [Cell.num 1, Cell.num 1]⟩,
         ⟨"Junk", Dtype.objDt, [Cell.str "a", Cell.str "b"]⟩,
         ⟨"Width_mm", Dtype.floatDt, [Cell.num 50, Cell.num 52]⟩] 2).names =
      ["FacialSymmetry", "Width_mm", "Brand_Acme"] ∧
    DataFrame.hasCol
      [⟨"FacialSymmetry", Dtype.floatDt, [Cell.num 1, Cell.num 1]⟩,
       ⟨"Junk", Dtype.objDt, [Cell.str "a", Cell.str "b"]⟩,
       ⟨"Width_mm", Dtype.floatDt, [Cell.num 50, Cell.num 52]⟩]
      "Brand_Acme" = false ∧
    (alignSchema ["FacialSymmetry", "Width_mm", "Brand_Acme"]
        [⟨"FacialSymmetry", Dtype.floatDt, [Cell.num 1, Cell.num 1]⟩,
         ⟨"Junk", Dtype.objDt, [Cell.str "a", Cell.str "b"]⟩,
         ⟨"Width_mm", Dtype.floatDt, [Cell.num 50, Cell.num 52]⟩] 2).getCol
        "Brand_Acme" = some (zeroCol "Brand_Acme" 2) := by
  refine ⟨(C1_alignSchema_exact _ _ _).1, by decide, ?_⟩
  exact (C1_alignSchema_exact ["FacialSymmetry", "Width_mm", "Brand_Acme"] _ 2).2
    "Brand_Acme" (by decide) (by decide)

/-! ## Geometric feature extraction (`src/face_analysis.py`,
`FaceAnalyzer._calculate_metrics`)

Landmarks are 2-D points; IEEE doubles are idealised as exact reals.
Three of the six ratios are computed behind an explicit
`if face_width > 0 else 0` guard in the source; the divisions for
`facial_symmetry`, the two brow-to-eye terms and `lip_to_nose_distance`
are NOT guarded.  An unguarded float division by zero does not raise in
numpy — it yields `inf` or `nan` — so those metric values are modelled
as `Option ℝ` with `none` standing for a non-finite float. -/

/-- A 2-D landmark point. -/
structure Pt where
  x : ℝ
  y : ℝ

/-- `np.linalg.norm(a - b)` for 2-D points. -/
noncomputable def ndist (a b : Pt) : ℝ :=
  Real.sqrt ((a.x - b.x) ^ 2 + (a.y - b.y) ^ 2)

/-- Float division as the source performs it without a guard: a zero
denominator produces a non-finite float (`inf` or `nan`), modelled as
`none`; otherwise the exact quotient. -/
noncomputable def npDiv (a b : ℝ) : Option ℝ :=
  if b = 0 then none else some (a / b)

/-- Round-half-to-even on reals, the rounding rule of Python `round`. -/
noncomputable def pyRound (x : ℝ) : ℤ :=
  if Int.fract x < 1 / 2 then ⌊x⌋
  else if 1 / 2 < Int.fract x then ⌊x⌋ + 1
  else if Even ⌊x⌋ then ⌊x⌋ else ⌊x⌋ + 1

/-- `round(x, 4)` of the source, idealised over exact reals. -/
noncomputable def round4 (x : ℝ) : ℝ :=
  (pyRound (x * 10000) : ℝ) / 10000

/-- Mean of four landmark points (`np.mean(points[[i,j,k,l]], axis=0)`). -/
noncomputable def meanPt (a b c d : Pt) : Pt :=
  ⟨(a.x + b.x + c.x + d.x) / 4, (a.y + b.y + c.y + d.y) / 4⟩

/-- Left eye center: mean of landmarks 33, 133, 159, 145. -/
noncomputable def leftEyeCenter (p : ℕ → Pt) : Pt :=
  meanPt (p 33) (p 133) (p 159) (p 145)

/-- Right eye center: mean of landmarks 362, 263, 386, 374. -/
noncomputable def rightEyeCenter (p : ℕ → Pt) : Pt :=
  meanPt (p 362) (p 263) (p 386) (p 374)

/-- Distance between the two eye centers. -/
noncomputable def eyeDistance (p : ℕ → Pt) : ℝ :=
  ndist (leftEyeCenter p) (rightEyeCenter p)

/-- Face width: distance between contour landmarks 234 and 454. -/
noncomputable def faceWidth (p : ℕ → Pt) : ℝ :=
  ndist (p 234) (p 454)

/-- Face height: distance between forehead 10 and chin 152. -/
noncomputable def faceHeight (p : ℕ → Pt) : ℝ :=
  ndist (p 10) (p 152)

/-- Jaw width: distance between jaw landmarks 172 and 397. -/
noncomputable def jawWidth (p : ℕ → Pt) : ℝ :=
  ndist (p 172) (p 397)

/-- Midline x: midpoint of the two eye-center x coordinates. -/
noncomputable def centerX (p : ℕ → Pt) : ℝ :=
  ((leftEyeCenter p).x + (rightEyeCenter p).x) / 2

/-- Deviation of the left eye center from the midline. -/
noncomputable def leftDeviation (p : ℕ → Pt) : ℝ :=
  |(leftEyeCenter p).x - centerX p|

/-- Deviation of the right eye center from the midline. -/
noncomputable def rightDeviation (p : ℕ → Pt) : ℝ :=
  |(rightEyeCenter p).x - centerX p|

/-- The six facial metrics the extractor emits; a `none` field models a
non-finite float produced by an unguarded division by zero.  The fields
carry the dict keys FacialSymmetry, GoldenRatioDeviation,
EyeSpacingRatio, JawlineWidthRatio, BrowToEyeDistance and
LipToNoseDistance. -/
structure Metrics where
  facialSymmetry : Option ℝ
  goldenRatioDeviation : Option ℝ
  eyeSpacingRatioVal : Option ℝ
  jawlineWidthRatioVal : Option ℝ
  browToEyeDistance : Option ℝ
  lipToNoseDistance : Option ℝ

/-- Direct embedding of `FaceAnalyzer._calculate_metrics`: guarded
divisions follow the literal `x / span if span > 0 else 0` expressions;
the remaining divisions are bare, hence `npDiv`. -/
noncomputable def calculateMetrics (p : ℕ → Pt) : Metrics :=
  { facialSymmetry :=
      (npDiv (|leftDeviation p - rightDeviation p|) (faceWidth p)).map round4
    goldenRatioDeviation :=
      some (round4
        (|(if faceWidth p > 0 then faceHeight p / faceWidth p else 0) - 1.618| / 1.618))
    eyeSpacingRatioVal :=
      some (round4 (if faceWidth p > 0 then eyeDistance p / faceWidth p else 0))
    jawlineWidthRatioVal :=
      some (round4 (if faceWidth p > 0 then jawWidth p / faceWidth p else 0))
    browToEyeDistance :=
      match npDiv (|(p 70).y - (leftEyeCenter p).y|) (faceHeight p),
            npDiv (|(p 300).y - (rightEyeCenter p).y|) (faceHeight p) with
      | some l, some r => some (round4 ((l + r) / 2))
      | _, _ => none
    lipToNoseDistance :=
      (npDiv (|(p 13).y - (p 1).y|) (faceHeight p)).map round4 }

/-- Modelled from the spec (section 4.1): the closed-form ratio
definitions of the six face metrics, each rounded to four decimal
places, stated for landmark sets with non-zero face width and height
(plain real division). -/
noncomputable def specMetrics (p : ℕ → Pt) : Metrics :=
  { facialSymmetry :=
      some (round4 (|leftDeviation p - rightDeviation p| / faceWidth p))
    goldenRatioDeviation :=
      some (round4 (|faceHeight p / faceWidth p - 1.618| / 1.618))
    eyeSpacingRatioVal :=
      some (round4 (eyeDistance p / faceWidth p))
    jawlineWidthRatioVal :=
      some (round4 (jawWidth p / faceWidth p))
    browToEyeDistance :=
      some (round4
        ((|(p 70).y - (leftEyeCenter p).y| / faceHeight p +
          |(p 300).y - (rightEyeCenter p).y| / faceHeight p) / 2))
    lipToNoseDistance :=
      some (round4 (|(p 13).y - (p 1).y| / faceHeight p)) }

theorem npDiv_of_ne (a b : ℝ) (h : b ≠ 0) : npDiv a b = some (a / b) := by
  simp [npDiv, h]

theorem npDiv_zero_den (a : ℝ) : npDiv a 0 = none := by
  simp [npDiv]

theorem pyRound_intCast (n : ℤ) : pyRound (n : ℝ) = n := by
  unfold pyRound
  rw [Int.fract_intCast]
  norm_num

theorem round4_intCast (n : ℤ) : round4 (n : ℝ) = (n : ℝ) := by
  unfold round4
  rw [show ((n : ℝ) * 10000) = ((n * 10000 : ℤ) : ℝ) by push_cast; ring,
    pyRound_intCast]
  push_cast
  field_simp

theorem round4_zero : round4 0 = 0 := by
  simpa using round4_intCast 0

theorem faceWidth_nonneg (p : ℕ → Pt) : 0 ≤ faceWidth p :=
  Real.sqrt_nonneg _

theorem faceWidth_pos_of_ne (p : ℕ → Pt) (h : faceWidth p ≠ 0) :
    0 < faceWidth p :=
  lt_of_le_of_ne (faceWidth_nonneg p) (Ne.symm h)

/-- C5 — For every landmark set with non-zero face width and height the
code computes exactly the spec closed forms: each guarded branch takes
its division branch, each unguarded division is finite, and each of the
six emitted metrics equals the corresponding closed-form ratio rounded
to four decimal places (`some` value, hence finite). -/
theorem C5_metrics_match_spec (p : ℕ → Pt) (hfw : faceWidth p ≠ 0)
    (hfh : faceHeight p ≠ 0) : calculateMetrics p = specMetrics p := by
  have hfwpos : 0 < faceWidth p := faceWidth_pos_of_ne p hfw
  unfold calculateMetrics specMetrics
  rw [npDiv_of_ne _ _ hfw, npDiv_of_ne _ _ hfh, npDiv_of_ne _ _ hfh,
    npDiv_of_ne _ _ hfh]
  simp [hfwpos]

/-- Concrete landmark set with face width 1000 and face height 1618
(all other landmarks at the origin). -/
noncomputable def ptsW : ℕ → Pt := fun i =>
  if i = 454 then ⟨1000, 0⟩ else if i = 152 then ⟨0, 1618⟩ else ⟨0, 0⟩

theorem faceWidth_ptsW : faceWidth ptsW = Real.sqrt 1000000 := by
  simp only [faceWidth, ndist, ptsW]
  norm_num

theorem faceHeight_ptsW : faceHeight ptsW = Real.sqrt 2617924 := by
  simp only [faceHeight, ndist, ptsW]
  norm_num

theorem faceWidth_ptsW_ne : faceWidth ptsW ≠ 0 := by
  rw [faceWidth_ptsW]
  positivity

theorem faceHeight_ptsW_ne : faceHeight ptsW ≠ 0 := by
  rw [faceHeight_ptsW]
  positivity

/-- C5 witness: the hypotheses hold at the concrete landmark set
`ptsW` and the metric equality follows from the theorem there. -/
theorem C5_metrics_match_spec_witness :
    faceWidth ptsW ≠ 0 ∧ faceHeight ptsW ≠ 0 ∧
      calculateMetrics ptsW = specMetrics ptsW :=
  ⟨faceWidth_ptsW_ne, faceHeight_ptsW_ne,
    C5_metrics_match_spec ptsW faceWidth_ptsW_ne faceHeight_ptsW_ne⟩

/-- C10 — With the midline taken as the midpoint of the two eye-center
x coordinates, the two deviations are always equal, so for any landmark
set with non-zero face width the emitted FacialSymmetry is exactly 0. -/
theorem C10_facialSymmetry_always_zero (p : ℕ → Pt)
    (h : faceWidth p ≠ 0) :
    (calculateMetrics p).facialSymmetry = some 0 := by
  have hdev : leftDeviation p = rightDeviation p := by
    unfold leftDeviation rightDeviation centerX
    rw [show (leftEyeCenter p).x -
          ((leftEyeCenter p).x + (rightEyeCenter p).x) / 2 =
          ((leftEyeCenter p).x - (rightEyeCenter p).x) / 2 by ring,
      show (rightEyeCenter p).x -
          ((leftEyeCenter p).x + (rightEyeCenter p).x) / 2 =
          -(((leftEyeCenter p).x - (rightEyeCenter p).x) / 2) by ring,
      abs_neg]
  unfold calculateMetrics
  rw [hdev, sub_self, abs_zero, npDiv_of_ne _ _ h, zero_div]
  simp [round4_zero]

/-- C10 witness: FacialSymmetry is 0 at the concrete landmark set
`ptsW`, whose face width is non-zero. -/
theorem C10_facialSymmetry_always_zero_witness :
    faceWidth ptsW ≠ 0 ∧ (calculateMetrics ptsW).facialSymmetry = some 0 :=
  ⟨faceWidth_ptsW_ne, C10_facialSymmetry_always_zero ptsW faceWidth_ptsW_ne⟩

/-- Degenerate landmark set: every landmark at the origin; in
particular the left and right face-contour points coincide, so face
width (and face height) are 0. -/
noncomputable def ptsO : ℕ → Pt := fun _ => ⟨0, 0⟩

theorem faceWidth_ptsO : faceWidth ptsO = 0 := by
  simp [faceWidth, ndist, ptsO]

theorem faceHeight_ptsO : faceHeight ptsO = 0 := by
  simp [faceHeight, ndist, ptsO]

/-- C2 — Evaluation of `_calculate_metrics` at the degenerate landmark
set: the guarded ratios EyeSpacingRatio and JawlineWidthRatio come out
0 as claimed, but FacialSymmetry, BrowToEyeDistance and
LipToNoseDistance are produced by unguarded divisions by the zero span
and are non-finite (`none`, the model of numpy nan or inf), not 0:
the zero-definition does NOT apply to them in the code. -/
theorem C2_degenerate_eval :
    (calculateMetrics ptsO).eyeSpacingRatioVal = some 0 ∧
    (calculateMetrics ptsO).jawlineWidthRatioVal = some 0 ∧
    (calculateMetrics ptsO).facialSymmetry = none ∧
    (calculateMetrics ptsO).browToEyeDistance = none ∧
    (calculateMetrics ptsO).lipToNoseDistance = none := by
  unfold calculateMetrics
  rw [faceWidth_ptsO, faceHeight_ptsO]
  simp [npDiv, round4_zero]

/-! ## Interaction features (`create_interaction_features` in
`src/my_recommend.py` and `src/train.py`, identical bodies) -/

/-- The six face-ratio column names the source iterates over. -/
def faceFeatures : List String :=
  ["FacialSymmetry", "GoldenRatioDeviation", "EyeSpacingRatio",
   "JawlineWidthRatio", "BrowToEyeDistance", "LipToNoseDistance"]

/-- The five frame numeric dimension column names. -/
def frameFeatures : List String :=
  ["Width_mm", "LensHeight_mm", "LensWidth_mm",
   "NoseBridgeWidth_mm", "TempleLength_mm"]

/-- Interaction-column naming: `f"{face_feat}_x_{frame_feat}"`. -/
def interName (a b : String) : String := a ++ "_x_" ++ b

/-- Element-wise product of two numeric cells (the series product
`df[a] * df[b]`; non-numeric cells never occur on these columns). -/
def cellMul : Cell → Cell → Cell
  | Cell.num a, Cell.num b => Cell.num (a * b)
  | _, _ => Cell.num 0

/-- Element-wise product of two columns. -/
def zipMul (xs ys : List Cell) : List Cell := List.zipWith cellMul xs ys

/-- `df[e] * 100 / df[w].clip(lower=1)` element-wise. -/
def cellDerived : Cell → Cell → Cell
  | Cell.num a, Cell.num b => Cell.num (a * 100 / max b 1)
  | _, _ => Cell.num 0

/-- Inner loop of `create_interaction_features`: for one face feature,
walk the frame features and assign the product column when the frame
feature is present. -/
def addInterRow (ff : String) (frs : List String) (df : DataFrame) : DataFrame :=
  match frs with
  | [] => df
  | fr :: rest =>
      if DataFrame.hasCol df fr = true then
        addInterRow ff rest
          (df.setCol ⟨interName ff fr, Dtype.floatDt,
            zipMul (DataFrame.colVals df ff) (DataFrame.colVals df fr)⟩)
      else addInterRow ff rest df

/-- Outer loop: walk the face features, processing a row of products
for each face feature present. -/
def addInteractions (ffs frs : List String) (df : DataFrame) : DataFrame :=
  match ffs with
  | [] => df
  | ff :: rest =>
      if DataFrame.hasCol df ff = true then
        addInteractions rest frs (addInterRow ff frs df)
      else addInteractions rest frs df

/-- The tail of `create_interaction_features` after the product loops:
the two guarded derived-ratio assignments, on whatever frame `d1` the
loops produced. -/
def interTail (d1 : DataFrame) : DataFrame :=
  let d2 :=
    if DataFrame.hasCol d1 "EyeSpacingRatio" = true ∧
        DataFrame.hasCol d1 "Width_mm" = true then
      d1.setCol ⟨"EyeToFrameWidth", Dtype.floatDt,
        List.zipWith cellDerived (DataFrame.colVals d1 "EyeSpacingRatio")
          (DataFrame.colVals d1 "Width_mm")⟩
    else d1
  if DataFrame.hasCol d2 "JawlineWidthRatio" = true ∧
      DataFrame.hasCol d2 "Width_mm" = true then
    d2.setCol ⟨"JawToFrameWidth", Dtype.floatDt,
      List.zipWith cellDerived (DataFrame.colVals d2 "JawlineWidthRatio")
        (DataFrame.colVals d2 "Width_mm")⟩
  else d2

/-- `create_interaction_features`: the 6 x 5 product columns followed by
the two guarded derived ratios `EyeToFrameWidth` and `JawToFrameWidth`. -/
def createInteractionFeatures (df : DataFrame) : DataFrame :=
  interTail (addInteractions faceFeatures frameFeatures df)

/-! ### Generic lemmas about `setCol` -/

theorem hasCol_eq_isSome (df : DataFrame) (d : String) :
    df.hasCol d = (df.getCol d).isSome := by
  induction df with
  | nil => simp [DataFrame.hasCol, DataFrame.getCol]
  | cons col rest ih =>
    by_cases hc : col.name = d
    · simp [DataFrame.hasCol, getCol_cons, hc]
    · simp only [DataFrame.hasCol, List.any_cons, getCol_cons,
        decide_eq_true_eq, hc, decide_False, Bool.false_or, if_neg hc]
      exact ih

theorem getCol_eq_none_of_not_hasCol (df : DataFrame) (d : String)
    (h : df.hasCol d = false) : df.getCol d = none := by
  rw [hasCol_eq_isSome] at h
  exact Option.not_isSome_iff_eq_none.mp (by simp [h])

theorem getCol_map_replace_self (df : DataFrame) (c : Col)
    (h : df.hasCol c.name = true) :
    DataFrame.getCol
      (df.map (fun col => if col.name = c.name then c else col)) c.name =
      some c := by
  induction df with
  | nil => simp [DataFrame.hasCol] at h
  | cons col rest ih =>
    by_cases hc : col.name = c.name
    · simp only [List.map_cons, if_pos hc]
      rw [getCol_cons, if_pos rfl]
    · have h' : DataFrame.hasCol rest c.name = true := by
        simpa [DataFrame.hasCol, hc] using h
      simp only [List.map_cons, if_neg hc]
      rw [getCol_cons, if_neg hc]
      exact ih h'

theorem getCol_map_replace_other (df : DataFrame) (c : Col) (d : String)
    (hd : d ≠ c.name) :
    DataFrame.getCol
      (df.map (fun col => if col.name = c.name then c else col)) d =
      df.getCol d := by
  induction df with
  | nil => simp
  | cons col rest ih =>
    by_cases hc : col.name = c.name
    · simp only [List.map_cons, if_pos hc]
      rw [getCol_cons, if_neg (Ne.symm hd), getCol_cons,
        if_neg (by rw [hc]; exact Ne.symm hd)]
      exact ih
    · simp only [List.map_cons, if_neg hc]
      rw [getCol_cons, getCol_cons]
      by_cases hcd : col.name = d
      · rw [if_pos hcd, if_pos hcd]
      · rw [if_neg hcd, if_neg hcd]
        exact ih

theorem getCol_setCol_self (df : DataFrame) (c : Col) :
    DataFrame.getCol (df.setCol c) c.name = some c := by
  unfold DataFrame.setCol
  by_cases h : df.hasCol c.name = true
  · rw [if_pos h]
    exact getCol_map_replace_self df c h
  · rw [if_neg (by simp [h])]
    rw [getCol_append_of_not_hasCol df _ _ (by simpa using h)]
    simp [DataFrame.getCol, List.find?]

theorem getCol_setCol_other (df : DataFrame) (c : Col) (d : String)
    (hd : d ≠ c.name) :
    DataFrame.getCol (df.setCol c) d = df.getCol d := by
  unfold DataFrame.setCol
  by_cases h : df.hasCol c.name = true
  · rw [if_pos h]
    exact getCol_map_replace_other df c d hd
  · rw [if_neg (by simp [h])]
    by_cases h2 : df.hasCol d = true
    · exact getCol_append_of_hasCol df _ d h2
    · rw [getCol_append_of_not_hasCol df _ d (by simpa using h2)]
      rw [getCol_eq_none_of_not_hasCol df d (by simpa using h2)]
      simp [DataFrame.getCol, List.find?, Ne.symm hd]

theorem colVals_setCol_other (df : DataFrame) (c : Col) (d : String)
    (hd : d ≠ c.name) :
    DataFrame.colVals (df.setCol c) d = DataFrame.colVals df d := by
  unfold DataFrame.colVals
  rw [getCol_setCol_other df c d hd]

theorem hasCol_setCol_other (df : DataFrame) (c : Col) (d : String)
    (hd : d ≠ c.name) :
    DataFrame.hasCol (df.setCol c) d = df.hasCol d := by
  rw [hasCol_eq_isSome, hasCol_eq_isSome, getCol_setCol_other df c d hd]

theorem colVals_eq_of_getCol_eq (a b : DataFrame) (d : String)
    (h : DataFrame.getCol a d = DataFrame.getCol b d) :
    DataFrame.colVals a d = DataFrame.colVals b d := by
  unfold DataFrame.colVals
  rw [h]

theorem hasCol_eq_of_getCol_eq (a b : DataFrame) (d : String)
    (h : DataFrame.getCol a d = DataFrame.getCol b d) :
    DataFrame.hasCol a d = DataFrame.hasCol b d := by
  rw [hasCol_eq_isSome, hasCol_eq_isSome, h]

/-- Names not generated by one product row are untouched by it. -/
theorem getCol_addInterRow_fresh (ff d : String) (frs : List String) :
    ∀ df : DataFrame, (∀ b ∈ frs, interName ff b ≠ d) →
      DataFrame.getCol (addInterRow ff frs df) d = df.getCol d := by
  induction frs with
  | nil => intro df _; rfl
  | cons b rest ih =>
    intro df hfresh
    simp only [addInterRow]
    by_cases hb : DataFrame.hasCol df b = true
    · rw [if_pos hb, ih _ (fun b2 hb2 => hfresh b2 (List.mem_cons_of_mem _ hb2))]
      exact getCol_setCol_other df _ d
        (Ne.symm (hfresh b (List.mem_cons_self b rest)))
    · rw [if_neg hb]
      exact ih df (fun b2 hb2 => hfresh b2 (List.mem_cons_of_mem _ hb2))

/-- One product row assigns, for a present frame feature `fr`, the
column named `interName ff fr` holding the element-wise product of the
original `ff` and `fr` columns. -/
theorem getCol_addInterRow_hit (ff fr : String) (frs : List String) :
    ∀ df : DataFrame, fr ∈ frs → frs.Nodup →
      DataFrame.hasCol df fr = true →
      (∀ b ∈ frs, interName ff b ≠ ff ∧ interName ff b ≠ fr) →
      (∀ b ∈ frs, interName ff b = interName ff fr → b = fr) →
      DataFrame.getCol (addInterRow ff frs df) (interName ff fr) =
        some ⟨interName ff fr, Dtype.floatDt,
          zipMul (DataFrame.colVals df ff) (DataFrame.colVals df fr)⟩ := by
  induction frs with
  | nil => intro df hmem; cases hmem
  | cons b rest ih =>
    intro df hmem hnd hfr hB hinj
    simp only [addInterRow]
    by_cases hbfr : b = fr
    · subst hbfr
      rw [if_pos hfr]
      have hfresh : ∀ b2 ∈ rest, interName ff b2 ≠ interName ff b := by
        intro b2 hb2 heq
        have hb2b : b2 = b := hinj b2 (List.mem_cons_of_mem _ hb2) heq
        exact (List.nodup_cons.mp hnd).1 (hb2b ▸ hb2)
      rw [getCol_addInterRow_fresh ff (interName ff b) rest _ hfresh]
      exact getCol_setCol_self df _
    · have hmem' : fr ∈ rest := by
        rcases List.mem_cons.mp hmem with h | h
        · exact absurd h.symm hbfr
        · exact h
      have hBr : ∀ b2 ∈ rest, interName ff b2 ≠ ff ∧ interName ff b2 ≠ fr :=
        fun b2 hb2 => hB b2 (List.mem_cons_of_mem _ hb2)
      have hinjr : ∀ b2 ∈ rest, interName ff b2 = interName ff fr → b2 = fr :=
        fun b2 hb2 => hinj b2 (List.mem_cons_of_mem _ hb2)
      by_cases hb : DataFrame.hasCol df b = true
      · rw [if_pos hb]
        have hBb := hB b (List.mem_cons_self b rest)
        have hfr2 : DataFrame.hasCol
            (df.setCol ⟨interName ff b, Dtype.floatDt,
              zipMul (DataFrame.colVals df ff) (DataFrame.colVals df b)⟩) fr = true := by
          rw [hasCol_setCol_other df _ fr (Ne.symm hBb.2)]
          exact hfr
        rw [ih _ hmem' (List.nodup_cons.mp hnd).2 hfr2 hBr hinjr]
        rw [colVals_setCol_other df _ ff (Ne.symm hBb.1),
          colVals_setCol_other df _ fr (Ne.symm hBb.2)]
      · rw [if_neg hb]
        exact ih df hmem' (List.nodup_cons.mp hnd).2 hfr hBr hinjr

/-- Names not generated by any processed row are untouched by the
outer loop. -/
theorem getCol_addInteractions_fresh (d : String) (frs : List String)
    (ffs : List String) :
    ∀ df : DataFrame, (∀ a ∈ ffs, ∀ b ∈ frs, interName a b ≠ d) →
      DataFrame.getCol (addInteractions ffs frs df) d = df.getCol d := by
  induction ffs with
  | nil => intro df _; rfl
  | cons a rest ih =>
    intro df h
    simp only [addInteractions]
    by_cases ha : DataFrame.hasCol df a = true
    · rw [if_pos ha,
        ih _ (fun a2 h2 b hb => h a2 (List.mem_cons_of_mem _ h2) b hb)]
      exact getCol_addInterRow_fresh a d frs df
        (fun b hb => h a (List.mem_cons_self a rest) b hb)
    · rw [if_neg ha]
      exact ih df (fun a2 h2 b hb => h a2 (List.mem_cons_of_mem _ h2) b hb)

/-- The outer loop assigns, for present `ff` and `fr`, the interaction
column holding the product of the original source columns. -/
theorem getCol_addInteractions_hit (ff fr : String) (frs : List String)
    (ffs : List String) :
    ∀ df : DataFrame, ff ∈ ffs → ffs.Nodup → fr ∈ frs → frs.Nodup →
      DataFrame.hasCol df ff = true → DataFrame.hasCol df fr = true →
      (∀ a ∈ ffs, ∀ b ∈ frs, interName a b ≠ ff ∧ interName a b ≠ fr) →
      (∀ a ∈ ffs, ∀ b ∈ frs,
        interName a b = interName ff fr → a = ff ∧ b = fr) →
      DataFrame.getCol (addInteractions ffs frs df) (interName ff fr) =
        some ⟨interName ff fr, Dtype.floatDt,
          zipMul (DataFrame.colVals df ff) (DataFrame.colVals df fr)⟩ := by
  induction ffs with
  | nil => intro df hmem; cases hmem
  | cons a rest ih =>
    intro df hmem hnd hmemfr hndfr hff hfr hB hinj
    simp only [addInteractions]
    by_cases haff : a = ff
    · subst haff
      rw [if_pos hff]
      have hfreshLater : ∀ a2 ∈ rest, ∀ b ∈ frs,
          interName a2 b ≠ interName a fr := by
        intro a2 ha2 b hb heq
        have h2 := hinj a2 (List.mem_cons_of_mem _ ha2) b hb heq
        exact (List.nodup_cons.mp hnd).1 (h2.1 ▸ ha2)
      rw [getCol_addInteractions_fresh _ frs rest _ hfreshLater]
      exact getCol_addInterRow_hit a fr frs df hmemfr hndfr hfr
        (fun b hb => hB a (List.mem_cons_self a rest) b hb)
        (fun b hb heq =>
          (hinj a (List.mem_cons_self a rest) b hb heq).2)
    · have hmem' : ff ∈ rest := by
        rcases List.mem_cons.mp hmem with h | h
        · exact absurd h.symm haff
        · exact h
      have hBr : ∀ a2 ∈ rest, ∀ b ∈ frs,
          interName a2 b ≠ ff ∧ interName a2 b ≠ fr :=
        fun a2 h2 => hB a2 (List.mem_cons_of_mem _ h2)
      have hinjr : ∀ a2 ∈ rest, ∀ b ∈ frs,
          interName a2 b = interName ff fr → a2 = ff ∧ b = fr :=
        fun a2 h2 => hinj a2 (List.mem_cons_of_mem _ h2)
      by_cases ha : DataFrame.hasCol df a = true
      · rw [if_pos ha]
        have hpff : DataFrame.getCol (addInterRow a frs df) ff = df.getCol ff :=
          getCol_addInterRow_fresh a ff frs df
            (fun b hb => (hB a (List.mem_cons_self a rest) b hb).1)
        have hpfr : DataFrame.getCol (addInterRow a frs df) fr = df.getCol fr :=
          getCol_addInterRow_fresh a fr frs df
            (fun b hb => (hB a (List.mem_cons_self a rest) b hb).2)
        rw [ih _ hmem' (List.nodup_cons.mp hnd).2 hmemfr hndfr
          (by rw [hasCol_eq_of_getCol_eq _ df ff hpff]; exact hff)
          (by rw [hasCol_eq_of_getCol_eq _ df fr hpfr]; exact hfr)
          hBr hinjr]
        rw [colVals_eq_of_getCol_eq _ df ff hpff,
          colVals_eq_of_getCol_eq _ df fr hpfr]
      · rw [if_neg ha]
        exact ih df hmem' (List.nodup_cons.mp hnd).2 hmemfr hndfr hff hfr hBr hinjr

theorem faceFeatures_nodup : faceFeatures.Nodup := by decide

theorem frameFeatures_nodup : frameFeatures.Nodup := by decide

theorem interNames_fresh :
    ∀ a ∈ faceFeatures, ∀ b ∈ frameFeatures,
      ∀ c ∈ faceFeatures ++ frameFeatures, interName a b ≠ c := by decide

theorem interNames_inj :
    ∀ a ∈ faceFeatures, ∀ b ∈ frameFeatures,
      ∀ a2 ∈ faceFeatures, ∀ b2 ∈ frameFeatures,
        interName a b = interName a2 b2 → a = a2 ∧ b = b2 := by decide

theorem interNames_ne_derived :
    ∀ a ∈ faceFeatures, ∀ b ∈ frameFeatures,
      interName a b ≠ "EyeToFrameWidth" ∧ interName a b ≠ "JawToFrameWidth" := by
  decide

theorem getCol_ite_setCol (P : Prop) [Decidable P] (x : DataFrame) (c : Col)
    (t : String) (h : t ≠ c.name) :
    DataFrame.getCol (if P then x.setCol c else x) t = DataFrame.getCol x t := by
  split_ifs with hp
  · exact getCol_setCol_other x c t h
  · rfl


theorem getCol_interTail_fresh (d1 : DataFrame) (t : String)
    (h1 : t ≠ "EyeToFrameWidth") (h2 : t ≠ "JawToFrameWidth") :
    DataFrame.getCol (interTail d1) t = DataFrame.getCol d1 t := by
  unfold interTail
  rw [getCol_ite_setCol _ _ _ _ h2, getCol_ite_setCol _ _ _ _ h1]

theorem getCol_interTail_eye (d1 : DataFrame)
    (hES : DataFrame.hasCol d1 "EyeSpacingRatio" = true)
    (hW : DataFrame.hasCol d1 "Width_mm" = true) :
    DataFrame.getCol (interTail d1) "EyeToFrameWidth" =
      some ⟨"EyeToFrameWidth", Dtype.floatDt,
        List.zipWith cellDerived (DataFrame.colVals d1 "EyeSpacingRatio")
          (DataFrame.colVals d1 "Width_mm")⟩ := by
  unfold interTail
  have hp : DataFrame.hasCol d1 "EyeSpacingRatio" = true ∧
      DataFrame.hasCol d1 "Width_mm" = true := ⟨hES, hW⟩
  rw [if_pos hp,
    getCol_ite_setCol _ _ _ _ (by decide :
      "EyeToFrameWidth" ≠ ("JawToFrameWidth" : String))]
  exact getCol_setCol_self _ _

theorem getCol_interTail_jaw (d1 : DataFrame)
    (hJW : DataFrame.hasCol d1 "JawlineWidthRatio" = true)
    (hW : DataFrame.hasCol d1 "Width_mm" = true) :
    DataFrame.getCol (interTail d1) "JawToFrameWidth" =
      some ⟨"JawToFrameWidth", Dtype.floatDt,
        List.zipWith cellDerived (DataFrame.colVals d1 "JawlineWidthRatio")
          (DataFrame.colVals d1 "Width_mm")⟩ := by
  unfold interTail
  by_cases hP1 : DataFrame.hasCol d1 "EyeSpacingRatio" = true ∧
      DataFrame.hasCol d1 "Width_mm" = true
  · rw [if_pos hP1]
    have e1 : DataFrame.getCol
        (d1.setCol ⟨"EyeToFrameWidth", Dtype.floatDt,
          List.zipWith cellDerived (DataFrame.colVals d1 "EyeSpacingRatio")
            (DataFrame.colVals d1 "Width_mm")⟩) "JawlineWidthRatio" =
        d1.getCol "JawlineWidthRatio" :=
      getCol_setCol_other _ _ _ (by simp)
    have e2 : DataFrame.getCol
        (d1.setCol ⟨"EyeToFrameWidth", Dtype.floatDt,
          List.zipWith cellDerived (DataFrame.colVals d1 "EyeSpacingRatio")
            (DataFrame.colVals d1 "Width_mm")⟩) "Width_mm" =
        d1.getCol "Width_mm" :=
      getCol_setCol_other _ _ _ (by simp)
    have hP2 : DataFrame.hasCol
        (d1.setCol ⟨"EyeToFrameWidth", Dtype.floatDt,
          List.zipWith cellDerived (DataFrame.colVals d1 "EyeSpacingRatio")
            (DataFrame.colVals d1 "Width_mm")⟩) "JawlineWidthRatio" = true ∧
        DataFrame.hasCol
        (d1.setCol ⟨"EyeToFrameWidth", Dtype.floatDt,
          List.zipWith cellDerived (DataFrame.colVals d1 "EyeSpacingRatio")
            (DataFrame.colVals d1 "Width_mm")⟩) "Width_mm" = true := by
      constructor
      · rw [hasCol_eq_of_getCol_eq _ d1 _ e1]; exact hJW
      · rw [hasCol_eq_of_getCol_eq _ d1 _ e2]; exact hW
    rw [if_pos hP2, colVals_eq_of_getCol_eq _ d1 _ e1,
      colVals_eq_of_getCol_eq _ d1 _ e2]
    exact getCol_setCol_self _ _
  · have hp2 : DataFrame.hasCol d1 "JawlineWidthRatio" = true ∧
        DataFrame.hasCol d1 "Width_mm" = true := ⟨hJW, hW⟩
    rw [if_neg hP1, if_pos hp2]
    exact getCol_setCol_self _ _

/-- C8 — `create_interaction_features` adds, for each face ratio and
frame dimension both present, the product column named by combining the
two source names, and the two derived ratios `EyeToFrameWidth` and
`JawToFrameWidth` (`ratio * 100 / Width_mm.clip(lower=1)`). -/
theorem C8_createInteractionFeatures (df : DataFrame) :
    (∀ ff ∈ faceFeatures, ∀ fr ∈ frameFeatures,
        DataFrame.hasCol df ff = true → DataFrame.hasCol df fr = true →
        DataFrame.getCol (createInteractionFeatures df) (interName ff fr) =
          some ⟨interName ff fr, Dtype.floatDt,
            zipMul (DataFrame.colVals df ff) (DataFrame.colVals df fr)⟩) ∧
    (DataFrame.hasCol df "EyeSpacingRatio" = true →
        DataFrame.hasCol df "Width_mm" = true →
        DataFrame.getCol (createInteractionFeatures df) "EyeToFrameWidth" =
          some ⟨"EyeToFrameWidth", Dtype.floatDt,
            List.zipWith cellDerived
              (DataFrame.colVals df "EyeSpacingRatio")
              (DataFrame.colVals df "Width_mm")⟩) ∧
    (DataFrame.hasCol df "JawlineWidthRatio" = true →
        DataFrame.hasCol df "Width_mm" = true →
        DataFrame.getCol (createInteractionFeatures df) "JawToFrameWidth" =
          some ⟨"JawToFrameWidth", Dtype.floatDt,
            List.zipWith cellDerived
              (DataFrame.colVals df "JawlineWidthRatio")
              (DataFrame.colVals df "Width_mm")⟩) := by
  have hES : DataFrame.getCol (addInteractions faceFeatures frameFeatures df)
      "EyeSpacingRatio" = df.getCol "EyeSpacingRatio" :=
    getCol_addInteractions_fresh _ frameFeatures faceFeatures df
      (fun a ha b hb => interNames_fresh a ha b hb "EyeSpacingRatio" (by decide))
  have hW : DataFrame.getCol (addInteractions faceFeatures frameFeatures df)
      "Width_mm" = df.getCol "Width_mm" :=
    getCol_addInteractions_fresh _ frameFeatures faceFeatures df
      (fun a ha b hb => interNames_fresh a ha b hb "Width_mm" (by decide))
  have hJW : DataFrame.getCol (addInteractions faceFeatures frameFeatures df)
      "JawlineWidthRatio" = df.getCol "JawlineWidthRatio" :=
    getCol_addInteractions_fresh _ frameFeatures faceFeatures df
      (fun a ha b hb => interNames_fresh a ha b hb "JawlineWidthRatio" (by decide))
  refine ⟨?_, ?_, ?_⟩
  · intro ff hff fr hfr h3 h4
    unfold createInteractionFeatures
    rw [getCol_interTail_fresh _ _
      (fun h => (interNames_ne_derived ff hff fr hfr).1 h)
      (fun h => (interNames_ne_derived ff hff fr hfr).2 h)]
    exact getCol_addInteractions_hit ff fr frameFeatures faceFeatures df hff
      faceFeatures_nodup hfr frameFeatures_nodup h3 h4
      (fun a ha b hb =>
        ⟨interNames_fresh a ha b hb ff (List.mem_append_left _ hff),
         interNames_fresh a ha b hb fr (List.mem_append_right _ hfr)⟩)
      (fun a ha b hb => interNames_inj a ha b hb ff hff fr hfr)
  · intro h5 h6
    unfold createInteractionFeatures
    rw [getCol_interTail_eye _
      (by rw [hasCol_eq_of_getCol_eq _ df _ hES]; exact h5)
      (by rw [hasCol_eq_of_getCol_eq _ df _ hW]; exact h6),
      colVals_eq_of_getCol_eq _ df _ hES, colVals_eq_of_getCol_eq _ df _ hW]
  · intro h7 h6
    unfold createInteractionFeatures
    rw [getCol_interTail_jaw _
      (by rw [hasCol_eq_of_getCol_eq _ df _ hJW]; exact h7)
      (by rw [hasCol_eq_of_getCol_eq _ df _ hW]; exact h6),
      colVals_eq_of_getCol_eq _ df _ hJW, colVals_eq_of_getCol_eq _ df _ hW]

/-- A concrete single-row frame holding all six face ratios and all
five frame dimensions (Width_mm deliberately below 1 to exercise the
clip guard). -/
def dfInter : DataFrame :=
  [⟨"FacialSymmetry", Dtype.floatDt, [Cell.num (1/2)]⟩,
   ⟨"GoldenRatioDeviation", Dtype.floatDt, [Cell.num 1]⟩,
   ⟨"EyeSpacingRatio", Dtype.floatDt, [Cell.num 2]⟩,
   ⟨"JawlineWidthRatio", Dtype.floatDt, [Cell.num 3]⟩,
   ⟨"BrowToEyeDistance", Dtype.floatDt, [Cell.num 4]⟩,
   ⟨"LipToNoseDistance", Dtype.floatDt, [Cell.num 5]⟩,
   ⟨"Width_mm", Dtype.floatDt, [Cell.num (1/2)]⟩,
   ⟨"LensHeight_mm", Dtype.floatDt, [Cell.num 30]⟩,
   ⟨"LensWidth_mm", Dtype.floatDt, [Cell.num 40]⟩,
   ⟨"NoseBridgeWidth_mm", Dtype.floatDt, [Cell.num 18]⟩,
   ⟨"TempleLength_mm", Dtype.floatDt, [Cell.num 140]⟩]

/-- C8 witness: on the concrete frame the product column
FacialSymmetry_x_Width_mm equals 1/2 * 1/2 = 1/4, and the two derived
ratios put the clipped denominator max(1/2, 1) = 1 to work:
EyeToFrameWidth = 2 * 100 / 1 = 200, JawToFrameWidth = 300. -/
theorem C8_createInteractionFeatures_witness :
    DataFrame.hasCol dfInter "FacialSymmetry" = true ∧
    DataFrame.hasCol dfInter "Width_mm" = true ∧
    DataFrame.getCol (createInteractionFeatures dfInter)
        "FacialSymmetry_x_Width_mm" =
      some ⟨"FacialSymmetry_x_Width_mm", Dtype.floatDt, [Cell.num (1/4)]⟩ ∧
    DataFrame.getCol (createInteractionFeatures dfInter) "EyeToFrameWidth" =
      some ⟨"EyeToFrameWidth", Dtype.floatDt, [Cell.num 200]⟩ ∧
    DataFrame.getCol (createInteractionFeatures dfInter) "JawToFrameWidth" =
      some ⟨"JawToFrameWidth", Dtype.floatDt, [Cell.num 300]⟩ := by
  refine ⟨by decide, by decide, ?_, ?_, ?_⟩
  · refine ((C8_createInteractionFeatures dfInter).1 "FacialSymmetry" (by decide)
      "Width_mm" (by decide) (by decide) (by decide)).trans ?_
    simp only [dfInter, DataFrame.colVals, DataFrame.getCol, List.find?,
      zipMul, List.zipWith, cellMul, interName]
    norm_num
    decide
  · refine ((C8_createInteractionFeatures dfInter).2.1
      (by decide) (by decide)).trans ?_
    simp only [dfInter, DataFrame.colVals, DataFrame.getCol, List.find?,
      List.zipWith, cellDerived]
    norm_num
  · refine ((C8_createInteractionFeatures dfInter).2.2
      (by decide) (by decide)).trans ?_
    simp only [dfInter, DataFrame.colVals, DataFrame.getCol, List.find?,
      List.zipWith, cellDerived]
    norm_num

/-! ## `sort_values(by=score, ascending=False)` (`src/recommend.py`
line 54, `src/my_recommend.py` line 95, `src/gemini_recommend.py`
line 174)

pandas `nargsort` computes a descending sort as: reverse the values,
ascending-argsort them with the requested kind (default numpy
`quicksort`, an introsort), map through the reversed positions, and
reverse the indexer.  numpy aquicksort runs a median-of-three partition
pass while the segment is longer than `SMALL_QUICKSORT = 15` entries
(i.e. `pr - pl > 15`) and insertion sort below; the depth-limit
heapsort fallback needs recursion depth above `2*log2 n` and cannot
trigger at the sizes any statement below mentions.  Loops are given
ample fuel; every run the theorems mention terminates well within it. -/

/-- Score at index `i` (reads of `v[*p]` in the C source). -/
def vAt (v : List ℚ) (i : Nat) : ℚ := v.getD i 0

/-- Tag (index) at position `i` of the argsort tag array. -/
def tAt (t : List Nat) (i : Nat) : Nat := t.getD i 0

/-- `INTP_SWAP(t[i], t[j])`. -/
def tSwap (t : List Nat) (i j : Nat) : List Nat :=
  (t.set i (tAt t j)).set j (tAt t i)

/-- `do ++pi; while (LT(v[t[pi]], vp));` — returns the final `pi`. -/
def scanUp (v : List ℚ) (t : List Nat) (vp : ℚ) : Nat → Nat → Nat
  | 0, i => i + 1
  | fuel + 1, i =>
      if vAt v (tAt t (i + 1)) < vp then scanUp v t vp fuel (i + 1) else i + 1

/-- `do --pj; while (LT(vp, v[t[pj]]));` — returns the final `pj`. -/
def scanDown (v : List ℚ) (t : List Nat) (vp : ℚ) : Nat → Nat → Nat
  | 0, j => j - 1
  | fuel + 1, j =>
      if vp < vAt v (tAt t (j - 1)) then scanDown v t vp fuel (j - 1) else j - 1

/-- The `for (;;)` partition exchange loop; returns the tag array and
the final `pi`. -/
def partLoop (v : List ℚ) (vp : ℚ) : Nat → List Nat → Nat → Nat → List Nat × Nat
  | 0, t, i, _ => (t, i)
  | fuel + 1, t, i, j =>
      let i2 := scanUp v t vp (t.length + 1) i
      let j2 := scanDown v t vp (t.length + 1) j
      if i2 ≥ j2 then (t, i2)
      else partLoop v vp fuel (tSwap t i2 j2) i2 j2

/-- One quicksort partition pass over segment `[pl, pr]`: median-of-3
pivot selection with swaps, pivot parked at `pr - 1`, exchange loop,
pivot swapped to its final place `pi`. -/
def partitionPass (v : List ℚ) (t : List Nat) (pl pr : Nat) : List Nat × Nat :=
  let pm := pl + (pr - pl) / 2
  let t1 := if vAt v (tAt t pm) < vAt v (tAt t pl) then tSwap t pm pl else t
  let t2 := if vAt v (tAt t1 pr) < vAt v (tAt t1 pm) then tSwap t1 pr pm else t1
  let t3 := if vAt v (tAt t2 pm) < vAt v (tAt t2 pl) then tSwap t2 pm pl else t2
  let vp := vAt v (tAt t3 pm)
  let t4 := tSwap t3 pm (pr - 1)
  let r := partLoop v vp (pr + 2) t4 pl (pr - 1)
  (tSwap r.1 r.2 (pr - 1), r.2)

/-- Stable insertion of tag `i` into an ascending-sorted tag list:
moves left past strictly greater values only, exactly the shift loop
`while (pj > pl && LT(vp, v[*pk]))` of the C insertion sort. -/
def insertTag (v : List ℚ) : List Nat → Nat → List Nat
  | [], i => [i]
  | j :: rest, i =>
      if vAt v i < vAt v j then i :: j :: rest else j :: insertTag v rest i

/-- Insertion sort of a tag list, left to right. -/
def insSortTags (v : List ℚ) (l : List Nat) : List Nat :=
  l.foldl (insertTag v) []

/-- Insertion sort of segment `[pl, pr]` of the tag array in place. -/
def insSortSeg (v : List ℚ) (t : List Nat) (pl pr : Nat) : List Nat :=
  t.take pl ++ insSortTags v ((t.drop pl).take (pr + 1 - pl)) ++ t.drop (pr + 1)

/-- Main aquicksort driver: partition passes while the segment exceeds
`SMALL_QUICKSORT = 15`, pushing the larger half on the explicit stack,
then insertion sort and stack pop. -/
def qsLoop (v : List ℚ) : Nat → List Nat → Nat → Nat → List (Nat × Nat) → List Nat
  | 0, t, _, _, _ => t
  | fuel + 1, t, pl, pr, stack =>
      if pr - pl > 15 then
        let r := partitionPass v t pl pr
        if r.2 - pl < pr - r.2 then
          qsLoop v fuel r.1 pl (r.2 - 1) ((r.2 + 1, pr) :: stack)
        else
          qsLoop v fuel r.1 (r.2 + 1) pr ((pl, r.2 - 1) :: stack)
      else
        let t2 := insSortSeg v t pl pr
        match stack with
        | [] => t2
        | (pl2, pr2) :: rest => qsLoop v fuel t2 pl2 pr2 rest

/-- numpy ascending argsort (`kind = quicksort`, the pandas default). -/
def npArgsort (v : List ℚ) : List Nat :=
  if v.length = 0 then []
  else qsLoop v (2 * v.length + 2) (List.range v.length) 0 (v.length - 1) []

/-- pandas `nargsort(values, ascending=False)`: reverse the values and
positions, ascending-argsort, and reverse the indexer; the resulting
list gives the row order of `sort_values(ascending=False)`. -/
def sortValuesDesc (s : List ℚ) : List Nat :=
  ((npArgsort s.reverse).map (fun p => s.length - 1 - p)).reverse

theorem mem_insertTag (v : List ℚ) (l : List Nat) (i x : Nat) :
    x ∈ insertTag v l i ↔ x ∈ l ∨ x = i := by
  induction l with
  | nil => simp [insertTag]
  | cons j rest ih =>
    simp only [insertTag]
    by_cases hc : vAt v i < vAt v j
    · rw [if_pos hc]
      simp only [List.mem_cons]
      tauto
    · rw [if_neg hc]
      simp only [List.mem_cons, ih]
      tauto

theorem mem_foldl_insertTag (v : List ℚ) (l : List Nat) (x : Nat) :
    ∀ acc : List Nat, (x ∈ l.foldl (insertTag v) acc ↔ x ∈ acc ∨ x ∈ l) := by
  induction l with
  | nil => intro acc; simp
  | cons y ys ih =>
    intro acc
    rw [List.foldl_cons, ih, mem_insertTag]
    simp only [List.mem_cons]
    tauto

theorem mem_insSortTags (v : List ℚ) (l : List Nat) (x : Nat) :
    x ∈ insSortTags v l ↔ x ∈ l := by
  unfold insSortTags
  rw [mem_foldl_insertTag]
  simp

theorem pairwise_insertTag (v : List ℚ) (l : List Nat) (i : Nat)
    (h : l.Pairwise (fun a b => vAt v a ≤ vAt v b)) :
    (insertTag v l i).Pairwise (fun a b => vAt v a ≤ vAt v b) := by
  induction l with
  | nil => simp [insertTag]
  | cons j rest ih =>
    rw [List.pairwise_cons] at h
    simp only [insertTag]
    by_cases hc : vAt v i < vAt v j
    · rw [if_pos hc]
      refine List.pairwise_cons.mpr ⟨?_, List.pairwise_cons.mpr ⟨h.1, h.2⟩⟩
      intro b hb
      rcases List.mem_cons.mp hb with rfl | hb2
      · exact le_of_lt hc
      · exact le_trans (le_of_lt hc) (h.1 b hb2)
    · rw [if_neg hc]
      refine List.pairwise_cons.mpr ⟨?_, ih h.2⟩
      intro b hb
      rcases (mem_insertTag v rest i b).mp hb with hb2 | rfl
      · exact h.1 b hb2
      · exact le_of_not_lt hc

/-- Strict insertion places the new tag after every already-present tag
of equal value: the equal-value class gains the new tag at its end. -/
theorem filter_insertTag (v : List ℚ) (q : ℚ) (l : List Nat) (i : Nat)
    (h : l.Pairwise (fun a b => vAt v a ≤ vAt v b)) :
    (insertTag v l i).filter (fun k => vAt v k = q) =
      if vAt v i = q then l.filter (fun k => vAt v k = q) ++ [i]
      else l.filter (fun k => vAt v k = q) := by
  induction l with
  | nil =>
    simp only [insertTag, List.filter_cons, List.filter_nil]
    by_cases hq : vAt v i = q <;> simp [hq]
  | cons j rest ih =>
    rw [List.pairwise_cons] at h
    simp only [insertTag]
    by_cases hc : vAt v i < vAt v j
    · rw [if_pos hc]
      by_cases hq : vAt v i = q
      · rw [if_pos hq]
        have hempty : (j :: rest).filter (fun k => vAt v k = q) = [] := by
          rw [List.filter_eq_nil_iff]
          intro a ha
          have hle : vAt v j ≤ vAt v a := by
            rcases List.mem_cons.mp ha with rfl | ha2
            · exact le_refl _
            · exact h.1 a ha2
          have hgt : q < vAt v a := lt_of_lt_of_le (hq ▸ hc) hle
          simp [ne_of_gt hgt]
        rw [List.filter_cons_of_pos (by simp [hq]), hempty]
        simp
      · rw [if_neg hq]
        rw [List.filter_cons_of_neg (by simp [hq])]
    · rw [if_neg hc]
      by_cases hq : vAt v i = q <;> by_cases hj : vAt v j = q <;>
        simp [List.filter_cons, ih h.2, hq, hj]

theorem filter_foldl_insertTag (v : List ℚ) (q : ℚ) (l : List Nat) :
    ∀ acc : List Nat, acc.Pairwise (fun a b => vAt v a ≤ vAt v b) →
      (l.foldl (insertTag v) acc).filter (fun k => vAt v k = q) =
        acc.filter (fun k => vAt v k = q) ++ l.filter (fun k => vAt v k = q) := by
  induction l with
  | nil => intro acc _; simp
  | cons x xs ih =>
    intro acc h
    rw [List.foldl_cons, ih _ (pairwise_insertTag v acc x h),
      filter_insertTag v q acc x h]
    by_cases hq : vAt v x = q <;> simp [hq, List.filter_cons]

/-- Insertion sort is stable: it preserves each equal-value class as a
subsequence, in input order. -/
theorem filter_insSortTags (v : List ℚ) (q : ℚ) (l : List Nat) :
    (insSortTags v l).filter (fun k => vAt v k = q) =
      l.filter (fun k => vAt v k = q) := by
  unfold insSortTags
  rw [filter_foldl_insertTag v q l [] (by simp)]
  simp

/-- For at most 16 entries the introsort driver never partitions: it is
exactly one insertion sort of the whole tag range. -/
theorem npArgsort_small (v : List ℚ) (h : v.length ≤ 16) :
    npArgsort v = insSortTags v (List.range v.length) := by
  unfold npArgsort
  by_cases h0 : v.length = 0
  · rw [if_pos h0, h0]
    rfl
  · rw [if_neg h0]
    rw [show 2 * v.length + 2 = (2 * v.length + 1) + 1 from rfl]
    simp only [qsLoop]
    rw [if_neg (by omega : ¬ (v.length - 1 - 0 > 15))]
    unfold insSortSeg
    rw [show v.length - 1 + 1 - 0 = v.length by omega]
    simp [List.take_of_length_le, List.drop_eq_nil_of_le,
      List.length_range]
    omega

theorem vAt_rev (s : List ℚ) (p : Nat) (hp : p < s.length) :
    vAt s.reverse p = s.getD (s.length - 1 - p) 0 := by
  unfold vAt
  have h1 : p < s.reverse.length := by simpa using hp
  have h2 : s.length - 1 - p < s.length := by omega
  rw [List.getD_eq_getElem s.reverse 0 h1, List.getD_eq_getElem s 0 h2]
  exact List.getElem_reverse ..

theorem range_map_sub (n : Nat) :
    (List.range n).map (fun p => n - 1 - p) = (List.range n).reverse := by
  have h1 : (List.range' 0 n).reverse =
      (List.range n).map (fun i => 0 + n - 1 - i) := List.reverse_range' ..
  calc (List.range n).map (fun p => n - 1 - p)
      = (List.range n).map (fun i => 0 + n - 1 - i) := by simp
    _ = (List.range' 0 n).reverse := h1.symm
    _ = (List.range n).reverse := by rw [← List.range_eq_range']

/-- C3 amended — the descending sort of `sort_values(ascending=False)`
is stable by original catalog order for catalogs of at most 16 rows
(numpy quicksort degenerates to a stable insertion sort there, and the
pandas double reversal restores original tie order); the concrete
3-frame scenario with scores [10, 30, 30] ranks row 1 before row 2
(top-2 = [B, C]).  Stability is stated as: each equal-score class of
the output equals the same class of the input order. -/
theorem C3_sortDesc_stable :
    (∀ s : List ℚ, s.length ≤ 16 → ∀ q : ℚ,
        (sortValuesDesc s).filter (fun k => s.getD k 0 = q) =
          (List.range s.length).filter (fun k => s.getD k 0 = q)) ∧
    (sortValuesDesc [10, 30, 30]).take 2 = [1, 2] := by
  constructor
  · intro s hlen q
    unfold sortValuesDesc
    have hrev : s.reverse.length = s.length := by simp
    rw [npArgsort_small s.reverse (by rw [hrev]; exact hlen), hrev]
    rw [List.filter_reverse, List.filter_map]
    have hmem : ∀ p ∈ insSortTags s.reverse (List.range s.length),
        p < s.length :=
      fun p hp => List.mem_range.mp ((mem_insSortTags _ _ _).mp hp)
    have hcongr1 : (insSortTags s.reverse (List.range s.length)).filter
        ((fun k => decide (s.getD k 0 = q)) ∘ (fun p => s.length - 1 - p)) =
        (insSortTags s.reverse (List.range s.length)).filter
        (fun p => decide (vAt s.reverse p = q)) := by
      refine List.filter_congr ?_
      intro p hp
      simp only [Function.comp]
      rw [vAt_rev s p (hmem p hp)]
    rw [hcongr1, filter_insSortTags]
    have hcongr2 : (List.range s.length).filter
        (fun p => decide (vAt s.reverse p = q)) =
        (List.range s.length).filter
        ((fun k => decide (s.getD k 0 = q)) ∘ (fun p => s.length - 1 - p)) := by
      refine List.filter_congr ?_
      intro p hp
      simp only [Function.comp]
      rw [vAt_rev s p (List.mem_range.mp hp)]
    rw [hcongr2, ← List.filter_map, range_map_sub, List.filter_reverse,
      List.reverse_reverse]
  · decide

/-- C3 amended witness: the stability statement instantiated at the
3-frame catalog, tie score 30. -/
theorem C3_sortDesc_stable_witness :
    ([10, 30, 30] : List ℚ).length ≤ 16 ∧
    (sortValuesDesc [10, 30, 30]).filter
        (fun k => ([10, 30, 30] : List ℚ).getD k 0 = 30) =
      (List.range 3).filter
        (fun k => ([10, 30, 30] : List ℚ).getD k 0 = 30) :=
  ⟨by decide, C3_sortDesc_stable.1 [10, 30, 30] (by decide) 30⟩

/-- C3 counterexample — a 17-row catalog in which every record gets the
same score 5: rows 1 and 9 are tied, yet the descending sort emits row
9 before row 1, reversing their catalog order (numpy quicksort runs a
partition pass once the segment exceeds 16 entries, and the pass
permutes equal keys).  This refutes stability for every catalog. -/
theorem C3_sortDesc_counterexample :
    (List.replicate 17 (5 : ℚ)).getD 1 0 = (List.replicate 17 (5 : ℚ)).getD 9 0 ∧
    (sortValuesDesc (List.replicate 17 (5 : ℚ))).indexOf 9 <
      (sortValuesDesc (List.replicate 17 (5 : ℚ))).indexOf 1 := by
  decide

/-! ## One-hot encoding, scaler, and the `recommend` pipeline
(`src/recommend.py` `load_artifacts` and `recommend`) -/

/-- Ordered insertion for the lexicographically sorted category levels
`pd.get_dummies` produces. -/
def strInsert (s : String) : List String → List String
  | [] => [s]
  | t :: rest => if s < t then s :: t :: rest else t :: strInsert s rest

/-- The distinct observed category values of a column, sorted. -/
def uniqueSorted (l : List String) : List String :=
  l.dedup.foldr strInsert []

/-- String payload of a categorical cell. -/
def cellStr : Cell → String
  | Cell.str s => s
  | _ => ""

/-- Indicator columns for one categorical column: one `bool` column per
observed level, named `f"{col}_{level}"`, no level dropped. -/
def dummiesFor (col : Col) : List Col :=
  (uniqueSorted (col.cells.map cellStr)).map (fun v =>
    ⟨col.name ++ "_" ++ v, Dtype.boolDt,
      col.cells.map (fun c => Cell.bl (c = Cell.str v))⟩)

/-- Remove a column by name. -/
def dropCol (df : DataFrame) (c : String) : DataFrame :=
  df.filter (fun col => !(col.name = c : Bool))

/-- Encode one categorical column: drop it, append its indicators. -/
def getDummies1 (df : DataFrame) (c : String) : DataFrame :=
  match DataFrame.getCol df c with
  | none => df
  | some col => dropCol df c ++ dummiesFor col

/-- `pd.get_dummies(df, columns=[c for c in cats if c in df.columns],
drop_first=False)`. -/
def getDummies (df : DataFrame) (cats : List String) : DataFrame :=
  (cats.filter (fun c => DataFrame.hasCol df c)).foldl getDummies1 df

/-- The fitted `StandardScaler`: the column names recorded at fit time
(`feature_names_in_`) and the per-column affine transform
`x ↦ (x - mean_c) / scale_c`, abstracted as a function. -/
structure Scaler where
  fittedCols : List String
  f : String → ℚ → ℚ

/-- `select_dtypes(include=[number])` membership: float64 and int64
qualify; bool (the `pd.get_dummies` output dtype of pandas 2.x) and
object do not. -/
def isNumericDt : Dtype → Bool
  | Dtype.floatDt => true
  | Dtype.intDt => true
  | _ => false

/-- The numeric column names of a frame, in column order. -/
def numericNames (df : DataFrame) : List String :=
  (df.filter (fun col => isNumericDt col.dtype)).map (fun col => col.name)

/-- Apply a rational map to a numeric cell. -/
def mapNumCell (g : ℚ → ℚ) : Cell → Cell
  | Cell.num q => Cell.num (g q)
  | c => c

/-- The scaling step of `recommend`: when a scaler was loaded, select
the numeric columns of the aligned matrix and call `transform`, which
(as sklearn does) validates the passed feature names against the fitted
ones and raises on any mismatch; on success the scaled values are
assigned back in place. -/
def scaleStep (os : Option Scaler) (df : DataFrame) : Except String DataFrame :=
  match os with
  | none => Except.ok df
  | some s =>
      if numericNames df = s.fittedCols then
        Except.ok (df.map (fun col =>
          if isNumericDt col.dtype then
            { col with cells := col.cells.map (mapNumCell (s.f col.name)) }
          else col))
      else
        Except.error "ValueError: feature names mismatch between fit and transform"

/-- The file-backed artifacts `recommend` loads; `none` models an
absent file.  The model is the fitted regressor as a pure prediction
function; `modelPath` is the path shown in its missing-file error. -/
structure Artifacts where
  xcolsFile : Option (List String)
  scalerFile : Option Scaler
  catalogFile : Option DataFrame
  modelFile : Option (DataFrame → List ℚ)
  modelPath : String

/-- The categorical frame columns `recommend` one-hot encodes. -/
def catColumns : List String :=
  ["Brand", "Material", "RimStyle", "BridgeType", "Color"]

/-- Broadcast the face dict over the catalog rows and concatenate
column-wise (face columns first), then one-hot encode. -/
def builtEncoded (catalog : DataFrame) (newFace : List (String × ℚ)) : DataFrame :=
  getDummies
    ((newFace.map (fun p =>
      (⟨p.1, Dtype.floatDt,
        List.replicate (DataFrame.nrows catalog) (Cell.num p.2)⟩ : Col))) ++ catalog)
    catColumns

/-- The schema-aligned matrix handed to the scaler and the model. -/
def alignedMatrix (xcols : List String) (catalog : DataFrame)
    (newFace : List (String × ℚ)) : DataFrame :=
  alignSchema xcols (builtEncoded catalog newFace) (DataFrame.nrows catalog)

/-- `recommend(new_face, model_path, top_k)` of `src/recommend.py`:
artifact loading (missing schema, model or catalog file raise
`FileNotFoundError`; a missing scaler file silently yields `None`),
broadcast, encoding, alignment, optional scaling, prediction, and the
descending score sort with top-k truncation and display column
selection. -/
def recommendE (a : Artifacts) (newFace : List (String × ℚ)) (topK : Nat) :
    Except String DataFrame :=
  match a.xcolsFile with
  | none => Except.error "FileNotFoundError: data/X_columns.json"
  | some xcols =>
  match a.modelFile with
  | none => Except.error ("Model not found: " ++ a.modelPath)
  | some model =>
  match a.catalogFile with
  | none =>
      Except.error "frame_catalog.csv not found in data/ — run preprocess.py first"
  | some catalog =>
      match scaleStep a.scalerFile (alignedMatrix xcols catalog newFace) with
      | Except.error e => Except.error e
      | Except.ok scaled =>
          let preds := model scaled
          let combined2 := DataFrame.setCol
            ((newFace.map (fun p =>
              (⟨p.1, Dtype.floatDt,
                List.replicate (DataFrame.nrows catalog) (Cell.num p.2)⟩ : Col))) ++ catalog)
            ⟨"PredictedBeautyScore", Dtype.floatDt, preds.map Cell.num⟩
          let top := DataFrame.takeRows combined2 ((sortValuesDesc preds).take topK)
          Except.ok (DataFrame.selectCols top
            (["FrameID"] ++
              (["Brand", "Shape", "Color"].filter
                (fun c => DataFrame.hasCol top c)) ++
              ["PredictedBeautyScore"]))

/-- C7 amended — a missing schema, model or catalog file aborts
`recommend` with a fatal error naming the missing artifact, and the
error short-circuits the pipeline, so no ranking is produced; a missing
scaler file, by contrast, is silently tolerated (see the
counterexample). -/
theorem C7_missing_artifact_errors (a : Artifacts) (face : List (String × ℚ))
    (k : Nat) :
    (a.xcolsFile = none →
      recommendE a face k =
        Except.error "FileNotFoundError: data/X_columns.json") ∧
    (∀ xc, a.xcolsFile = some xc → a.modelFile = none →
      recommendE a face k =
        Except.error ("Model not found: " ++ a.modelPath)) ∧
    (∀ xc m, a.xcolsFile = some xc → a.modelFile = some m →
      a.catalogFile = none →
      recommendE a face k =
        Except.error
          "frame_catalog.csv not found in data/ — run preprocess.py first") := by
  refine ⟨?_, ?_, ?_⟩
  · intro h1
    simp [recommendE, h1]
  · intro xc h1 h2
    simp [recommendE, h1, h2]
  · intro xc m h1 h2 h3
    simp [recommendE, h1, h2, h3]

/-- C7 witness: the three fatal cases at concrete artifact states. -/
theorem C7_missing_artifact_errors_witness :
    recommendE ⟨none, none, none, none, "models/regressor.joblib"⟩ [] 5 =
      Except.error "FileNotFoundError: data/X_columns.json" ∧
    recommendE ⟨some ["Width_mm"], none, none, none, "models/regressor.joblib"⟩ [] 5 =
      Except.error "Model not found: models/regressor.joblib" ∧
    recommendE ⟨some ["Width_mm"], none, none, some (fun _ => [1]),
        "models/regressor.joblib"⟩ [] 5 =
      Except.error
        "frame_catalog.csv not found in data/ — run preprocess.py first" :=
  ⟨(C7_missing_artifact_errors _ [] 5).1 rfl,
   (C7_missing_artifact_errors _ [] 5).2.1 ["Width_mm"] rfl rfl,
   (C7_missing_artifact_errors _ [] 5).2.2 ["Width_mm"] (fun _ => [1]) rfl rfl rfl⟩

/-- A 1-row, 2-column catalog used in concrete pipeline runs. -/
def catC7 : DataFrame :=
  [⟨"FrameID", Dtype.objDt, [Cell.str "F1"]⟩,
   ⟨"Width_mm", Dtype.floatDt, [Cell.num 50]⟩]

/-- Artifact state in which every file except the scaler is present. -/
def aC7 : Artifacts :=
  ⟨some ["FacialSymmetry", "Width_mm"], none, some catC7,
   some (fun _ => [7]), "models/regressor.joblib"⟩

/-- C7 counterexample — with the scaler file absent (and every other
artifact present) `recommend` does not abort: `load_artifacts` sets
`scaler = None` and the run completes with a ranking, contradicting
the claim that an absent scaler file is a fatal MissingArtifact
error. -/
theorem C7_scaler_absent_counterexample :
    aC7.scalerFile = none ∧
    recommendE aC7 [("FacialSymmetry", 1)] 5 =
      Except.ok
        [⟨"FrameID", Dtype.objDt, [Cell.str "F1"]⟩,
         ⟨"PredictedBeautyScore", Dtype.floatDt, [Cell.num 7]⟩] := by
  constructor
  · rfl
  · rfl

/-- Shared consequence of alignment used by the silent zero-fill
statements: a schema column absent from the built matrix aligns to the
integer column of zeros. -/
theorem getCol_alignSchema_of_missing (xcols : List String) (df : DataFrame)
    (n : Nat) (c : String) (hc : c ∈ xcols) (habs : df.hasCol c = false) :
    (alignSchema xcols df n).getCol c = some (zeroCol c n) := by
  have hval := getCol_addMissing_of_missing xcols df n c hc habs
  rw [alignSchema, getCol_selectCols_mem _ xcols c hc, hval]
  rfl

/-- C6 amended — `recommend` never surfaces a configuration error for a
schema column it cannot synthesize: with schema, model and catalog
present and no scaler, the run always succeeds, and every schema column
absent from the built matrix — interaction-term columns included — is
silently zero-filled. -/
theorem C6_silent_zero_fill (a : Artifacts) (face : List (String × ℚ))
    (k : Nat) (xc : List String) (m : DataFrame → List ℚ) (cat : DataFrame)
    (h1 : a.xcolsFile = some xc) (h2 : a.modelFile = some m)
    (h3 : a.catalogFile = some cat) (h4 : a.scalerFile = none) :
    (recommendE a face k).isOk = true ∧
    ∀ c ∈ xc, DataFrame.hasCol (builtEncoded cat face) c = false →
      DataFrame.getCol (alignedMatrix xc cat face) c =
        some (zeroCol c (DataFrame.nrows cat)) := by
  constructor
  · simp only [recommendE, h1, h2, h3, h4, scaleStep]
    rfl
  · intro c hc habs
    exact getCol_alignSchema_of_missing xc (builtEncoded cat face) _ c hc habs

/-- 1-row catalog without any interaction columns. -/
def catC6 : DataFrame :=
  [⟨"FrameID", Dtype.objDt, [Cell.str "F1"]⟩,
   ⟨"Width_mm", Dtype.floatDt, [Cell.num 50]⟩]

/-- A schema demanding an interaction-term column that the plain
`recommend.py` builder never synthesizes. -/
def xcolsC6 : List String :=
  ["FacialSymmetry", "Width_mm", "FacialSymmetry_x_Width_mm"]

/-- Artifact state whose schema contains the unsynthesizable column. -/
def aC6 : Artifacts :=
  ⟨some xcolsC6, none, some catC6, some (fun _ => [7]),
   "models/regressor.joblib"⟩

/-- C6 counterexample — the schema requires
`FacialSymmetry_x_Width_mm`, which the builder cannot synthesize (the
built matrix has no such column), yet `recommend` raises no fatal
configuration error: it zero-fills the column and returns a ranking. -/
theorem C6_counterexample :
    "FacialSymmetry_x_Width_mm" ∈ xcolsC6 ∧
    DataFrame.hasCol (builtEncoded catC6 [("FacialSymmetry", 1)])
      "FacialSymmetry_x_Width_mm" = false ∧
    DataFrame.getCol (alignedMatrix xcolsC6 catC6 [("FacialSymmetry", 1)])
      "FacialSymmetry_x_Width_mm" = some (zeroCol "FacialSymmetry_x_Width_mm" 1) ∧
    recommendE aC6 [("FacialSymmetry", 1)] 5 =
      Except.ok
        [⟨"FrameID", Dtype.objDt, [Cell.str "F1"]⟩,
         ⟨"PredictedBeautyScore", Dtype.floatDt, [Cell.num 7]⟩] := by
  refine ⟨by decide, by decide, by decide, by rfl⟩

/-- C6 witness: the amended statement at the concrete artifact state
with the unsynthesizable schema column. -/
theorem C6_silent_zero_fill_witness :
    (recommendE aC6 [("FacialSymmetry", 1)] 5).isOk = true ∧
    DataFrame.getCol (alignedMatrix xcolsC6 catC6 [("FacialSymmetry", 1)])
      "FacialSymmetry_x_Width_mm" =
      some (zeroCol "FacialSymmetry_x_Width_mm" (DataFrame.nrows catC6)) :=
  ⟨(C6_silent_zero_fill aC6 [("FacialSymmetry", 1)] 5 xcolsC6 (fun _ => [7])
      catC6 rfl rfl rfl rfl).1,
   (C6_silent_zero_fill aC6 [("FacialSymmetry", 1)] 5 xcolsC6 (fun _ => [7])
      catC6 rfl rfl rfl rfl).2 "FacialSymmetry_x_Width_mm" (by decide) (by decide)⟩

theorem getCol_of_mem_nodup (df : DataFrame) (col : Col)
    (hnodup : (df.map (fun c2 => c2.name)).Nodup) (hmem : col ∈ df) :
    df.getCol col.name = some col := by
  induction df with
  | nil => cases hmem
  | cons head rest ih =>
    rcases List.mem_cons.mp hmem with rfl | hmem2
    · rw [getCol_cons, if_pos rfl]
    · have hnodup2 : (head.name :: rest.map (fun c2 => c2.name)).Nodup := hnodup
      have hne : head.name ≠ col.name := by
        intro heq
        exact (List.nodup_cons.mp hnodup2).1
          (heq ▸ List.mem_map.mpr ⟨col, hmem2, rfl⟩)
      rw [getCol_cons, if_neg hne]
      exact ih (List.nodup_cons.mp hnodup2).2 hmem2

theorem names_map_preserving (df : DataFrame) (g : Col → Col)
    (hg : ∀ col, (g col).name = col.name) :
    DataFrame.names (df.map g) = df.names := by
  unfold DataFrame.names
  rw [List.map_map]
  exact List.map_congr_left (fun col _ => hg col)

theorem getCol_map_preserving (df : DataFrame) (g : Col → Col)
    (hg : ∀ col, (g col).name = col.name) (col : Col)
    (hnodup : (df.map (fun c2 => c2.name)).Nodup) (hmem : col ∈ df) :
    DataFrame.getCol (df.map g) col.name = some (g col) := by
  have hnodup2 : ((df.map g).map (fun c2 => c2.name)).Nodup := by
    rw [List.map_map]
    have : (fun c2 => (g c2).name) = fun c2 : Col => c2.name :=
      funext (fun c2 => hg c2)
    rw [show ((fun c2 => c2.name) ∘ g) = fun c2 : Col => c2.name from
      funext (fun c2 => hg c2)]
    exact hnodup
  have hmem2 : g col ∈ df.map g := List.mem_map.mpr ⟨col, hmem, rfl⟩
  have := getCol_of_mem_nodup (df.map g) (g col) hnodup2 hmem2
  rw [hg col] at this
  exact this

theorem mem_numericNames_iff (df : DataFrame) (col : Col)
    (hnodup : (df.map (fun c2 => c2.name)).Nodup) (hmem : col ∈ df) :
    col.name ∈ numericNames df ↔ isNumericDt col.dtype = true := by
  unfold numericNames
  constructor
  · intro h
    rcases List.mem_map.mp h with ⟨col2, hcol2, hname⟩
    have hcol2df : col2 ∈ df := List.mem_of_mem_filter hcol2
    have heq : col2 = col :=
      List.inj_on_of_nodup_map hnodup hcol2df hmem hname
    have := List.of_mem_filter hcol2
    rw [← heq]
    simpa using this
  · intro h
    exact List.mem_map.mpr ⟨col, List.mem_filter.mpr ⟨hmem, by simpa using h⟩, rfl⟩

/-- C4 amended — the scaling step selects the numeric-dtype columns of
the aligned matrix; precisely when that selection coincides with the
column list the scaler was fitted on, the transform succeeds and scales
exactly the fitted columns in place, leaving every other column of the
aligned matrix unchanged.  (When the sets differ — which happens as
soon as alignment zero-filled a schema column, since zero-fill yields
an int64 numeric column that was boolean at fit time — the transform
raises instead; see the counterexample.) -/
theorem C4_scaler_fitted_columns (s : Scaler) (df : DataFrame)
    (hnodup : (df.map (fun c2 => c2.name)).Nodup)
    (hmatch : numericNames df = s.fittedCols) :
    ∃ df2, scaleStep (some s) df = Except.ok df2 ∧
      df2.names = df.names ∧
      (∀ col ∈ df, col.name ∈ s.fittedCols →
        DataFrame.getCol df2 col.name =
          some { col with cells := col.cells.map (mapNumCell (s.f col.name)) }) ∧
      (∀ col ∈ df, col.name ∉ s.fittedCols →
        DataFrame.getCol df2 col.name = some col) := by
  have hg : ∀ col : Col,
      ((fun col => if isNumericDt col.dtype then
        { col with cells := col.cells.map (mapNumCell (s.f col.name)) }
      else col) col).name = col.name := by
    intro col
    by_cases h : isNumericDt col.dtype <;> simp [h]
  refine ⟨df.map (fun col =>
    if isNumericDt col.dtype then
      { col with cells := col.cells.map (mapNumCell (s.f col.name)) }
    else col), ?_, ?_, ?_, ?_⟩
  · simp only [scaleStep]
    rw [if_pos hmatch]
  · exact names_map_preserving df _ hg
  · intro col hcol hfit
    have hnum : isNumericDt col.dtype = true := by
      rw [← hmatch] at hfit
      exact (mem_numericNames_iff df col hnodup hcol).mp hfit
    rw [getCol_map_preserving df _ hg col hnodup hcol]
    simp [hnum]
  · intro col hcol hfit
    have hnum : isNumericDt col.dtype = false := by
      by_contra h
      have h2 : isNumericDt col.dtype = true := by
        simpa using h
      exact hfit (hmatch ▸ (mem_numericNames_iff df col hnodup hcol).mpr h2)
    rw [getCol_map_preserving df _ hg col hnodup hcol]
    simp [hnum]

/-- Catalog with brand Zen only. -/
def catC4 : DataFrame :=
  [⟨"FrameID", Dtype.objDt, [Cell.str "F1"]⟩,
   ⟨"Brand", Dtype.objDt, [Cell.str "Zen"]⟩,
   ⟨"Width_mm", Dtype.floatDt, [Cell.num 50]⟩]

/-- Training-time schema: the indicator `Brand_Acme` was observed in
training but the current catalog slice has no Acme frame. -/
def xcolsC4 : List String :=
  ["FacialSymmetry", "Width_mm", "Brand_Zen", "Brand_Acme"]

/-- The scaler preprocess fitted on the numeric (float) columns of the
training matrix: the face metric and the frame dimension; the dummy
columns were boolean at fit time and excluded. -/
def sC4 : Scaler := ⟨["FacialSymmetry", "Width_mm"], fun _ q => q⟩

/-- Artifact state with the fitted scaler present. -/
def aC4 : Artifacts :=
  ⟨some xcolsC4, some sC4, some catC4, some (fun _ => [7]),
   "models/regressor.joblib"⟩

/-- C4 counterexample — the aligned matrix zero-fills `Brand_Acme` as
an int64 column, so `select_dtypes(include=[number])` selects it along
with the float columns: the column set handed to the scaler is NOT the
set it was fitted on, and the transform raises a feature-names
mismatch instead of scaling; no other column is touched and no ranking
is produced. -/
theorem C4_scaler_counterexample :
    numericNames (alignedMatrix xcolsC4 catC4 [("FacialSymmetry", 1)]) =
      ["FacialSymmetry", "Width_mm", "Brand_Acme"] ∧
    sC4.fittedCols = ["FacialSymmetry", "Width_mm"] ∧
    numericNames (alignedMatrix xcolsC4 catC4 [("FacialSymmetry", 1)]) ≠
      sC4.fittedCols ∧
    recommendE aC4 [("FacialSymmetry", 1)] 1 =
      Except.error "ValueError: feature names mismatch between fit and transform" := by
  refine ⟨by decide, rfl, by decide, by rfl⟩

/-- C4 amended witness: a two-column frame whose numeric column list
equals the fitted list; the transform succeeds, scales the numeric
column in place and leaves the boolean column unchanged. -/
theorem C4_scaler_fitted_columns_witness :
    (([⟨"A", Dtype.floatDt, [Cell.num 2]⟩,
       ⟨"B", Dtype.boolDt, [Cell.bl true]⟩] : DataFrame).map
        (fun c2 => c2.name)).Nodup ∧
    numericNames [⟨"A", Dtype.floatDt, [Cell.num 2]⟩,
       ⟨"B", Dtype.boolDt, [Cell.bl true]⟩] = ["A"] ∧
    (∃ df2, scaleStep (some ⟨["A"], fun _ q => q⟩)
        [⟨"A", Dtype.floatDt, [Cell.num 2]⟩,
         ⟨"B", Dtype.boolDt, [Cell.bl true]⟩] = Except.ok df2 ∧
      df2.names = DataFrame.names
          [⟨"A", Dtype.floatDt, [Cell.num 2]⟩,
           ⟨"B", Dtype.boolDt, [Cell.bl true]⟩] ∧
      (∀ col ∈ ([⟨"A", Dtype.floatDt, [Cell.num 2]⟩,
         ⟨"B", Dtype.boolDt, [Cell.bl true]⟩] : DataFrame),
        col.name ∈ (["A"] : List String) →
        DataFrame.getCol df2 col.name =
          some { col with
            cells := col.cells.map (mapNumCell ((fun _ q => q) col.name)) }) ∧
      (∀ col ∈ ([⟨"A", Dtype.floatDt, [Cell.num 2]⟩,
         ⟨"B", Dtype.boolDt, [Cell.bl true]⟩] : DataFrame),
        col.name ∉ (["A"] : List String) →
        DataFrame.getCol df2 col.name = some col)) :=
  ⟨by decide, by decide,
   C4_scaler_fitted_columns ⟨["A"], fun _ q => q⟩ _ (by decide) (by decide)⟩

/-! ## Remote vision-model score mapping (`src/gemini_recommend.py`,
`score_frames` lines 136-142)

```python
score_map = {str(item["FrameID"]): int(item["score"]) for item in scores_list}
return frames_df["FrameID"].astype(str).map(score_map).fillna(0).astype(int)
```
-/

/-- Python dict insertion: an existing key is overwritten in place,
a new key is appended. -/
def dictInsert (m : List (String × Int)) (k : String) (x : Int) :
    List (String × Int) :=
  if m.any (fun p => p.1 = k) then
    m.map (fun p => if p.1 = k then (k, x) else p)
  else m ++ [(k, x)]

/-- The dict comprehension over the parsed response array. -/
def buildScoreMap (resp : List (String × Int)) : List (String × Int) :=
  resp.foldl (fun m p => dictInsert m p.1 p.2) []

/-- Dict lookup. -/
def lookupScore (m : List (String × Int)) (k : String) : Option Int :=
  (m.find? (fun p => p.1 = k)).map (fun p => p.2)

/-- `frames_df["FrameID"].astype(str).map(score_map).fillna(0)
.astype(int)`: one integer score per catalog row, defaulting to 0 for
any FrameID the response did not cover. -/
def scoreSeries (ids : List String) (resp : List (String × Int)) : List Int :=
  ids.map (fun fid => (lookupScore (buildScoreMap resp) fid).getD 0)

theorem key_mem_dictInsert (m : List (String × Int)) (k : String) (x : Int)
    (p : String × Int) (hp : p ∈ dictInsert m k x) :
    p.1 = k ∨ p.1 ∈ m.map Prod.fst := by
  unfold dictInsert at hp
  by_cases h : m.any (fun p2 => p2.1 = k) = true
  · rw [if_pos h] at hp
    rcases List.mem_map.mp hp with ⟨p2, hp2, heq⟩
    by_cases h2 : p2.1 = k
    · left
      rw [← heq]
      simp [h2]
    · right
      rw [← heq, if_neg h2]
      exact List.mem_map.mpr ⟨p2, hp2, rfl⟩
  · rw [if_neg h] at hp
    rcases List.mem_append.mp hp with h2 | h2
    · right
      exact List.mem_map.mpr ⟨p, h2, rfl⟩
    · left
      simp only [List.mem_singleton] at h2
      rw [h2]

theorem key_mem_buildScoreMap (resp : List (String × Int)) :
    ∀ acc : List (String × Int),
      ∀ p ∈ resp.foldl (fun m q => dictInsert m q.1 q.2) acc,
        p.1 ∈ acc.map Prod.fst ∨ p.1 ∈ resp.map Prod.fst := by
  induction resp with
  | nil => intro acc p hp; left; exact List.mem_map.mpr ⟨p, hp, rfl⟩
  | cons q qs ih =>
    intro acc p hp
    rw [List.foldl_cons] at hp
    rcases ih (dictInsert acc q.1 q.2) p hp with h | h
    · rcases List.mem_map.mp h with ⟨p2, hp2, heq⟩
      rcases key_mem_dictInsert acc q.1 q.2 p2 hp2 with h2 | h2
      · right
        rw [← heq, h2]
        exact List.mem_map.mpr ⟨q, List.mem_cons_self q qs, rfl⟩
      · left
        rw [← heq]
        exact h2
    · right
      simp only [List.map_cons, List.mem_cons]
      right
      exact h

/-- C9 — the score-mapping of the remote ranking variant is total over
the catalog: one integer score per catalog row is produced regardless
of the response, and any catalog FrameID absent from the response array
gets score 0. -/
theorem C9_missing_frameID_defaults_zero (ids : List String)
    (resp : List (String × Int)) :
    (scoreSeries ids resp).length = ids.length ∧
    ∀ i, i < ids.length → (∀ p ∈ resp, p.1 ≠ ids.getD i "") →
      (scoreSeries ids resp).getD i 0 = 0 := by
  constructor
  · simp [scoreSeries]
  · intro i hi habs
    have hlen : i < (scoreSeries ids resp).length := by
      simpa [scoreSeries] using hi
    have hval : (scoreSeries ids resp).getD i 0 =
        (lookupScore (buildScoreMap resp) (ids.getD i "")).getD 0 := by
      unfold scoreSeries
      rw [List.getD_eq_getElem _ _ (by simpa [scoreSeries] using hi),
        List.getElem_map, List.getD_eq_getElem _ _ hi]
    rw [hval]
    have hnone : lookupScore (buildScoreMap resp) (ids.getD i "") = none := by
      unfold lookupScore
      rw [List.find?_eq_none.mpr]
      · rfl
      · intro p hp
        have := key_mem_buildScoreMap resp [] p hp
        simp only [List.map_nil, List.not_mem_nil, false_or] at this
        rcases List.mem_map.mp this with ⟨p2, hp2, heq⟩
        simpa [← heq] using habs p2 hp2
    rw [hnone]
    rfl

/-- C9 witness: catalog [A, B, C] with a response covering only B:
the series is total ([0, 50, 0]) and rows A and C default to 0. -/
theorem C9_missing_frameID_defaults_zero_witness :
    (scoreSeries ["A", "B", "C"] [("B", 50)]).length = 3 ∧
    (∀ p ∈ ([("B", 50)] : List (String × Int)),
      p.1 ≠ (["A", "B", "C"] : List String).getD 0 "") ∧
    (scoreSeries ["A", "B", "C"] [("B", 50)]).getD 0 0 = 0 ∧
    scoreSeries ["A", "B", "C"] [("B", 50)] = [0, 50, 0] :=
  ⟨(C9_missing_frameID_defaults_zero ["A", "B", "C"] [("B", 50)]).1,
   by decide,
   (C9_missing_frameID_defaults_zero ["A", "B", "C"] [("B", 50)]).2 0
     (by decide) (by decide),
   by decide⟩
